import Mathlib

/-!
# Voice-screening engine: a shallow embedding

This file embeds the voice k-NN screening engine of
`src/services/voiceKnnModel.ts` in Lean 4 and proves the frozen claims
about it.  JavaScript numbers are modelled as exact rationals (`ℚ`) in the
purely comparative signal-conditioning and CSV-parsing code, and as real
numbers (`ℝ`) wherever `Math.sqrt`/`Math.cos`/`Math.log10` occur (pitch
analysis, feature derivation, k-NN distances).  JavaScript strings are
modelled as `List Char`.  Code that `throw`s is modelled with
`Option`/`Except`.
-/

namespace VoiceKnn

/-- The binary clinical label (`'Parkinsons' | 'Healthy'` in the source). -/
inductive VoiceClass where
  | Parkinsons
  | Healthy
deriving DecidableEq, Repr

/-- The 16 feature columns, in the fixed order of `FEATURE_COLUMNS`. -/
inductive FeatureKey where
  | meanPeriodPulses
  | stdDevPeriodPulses
  | locPctJitter
  | locAbsJitter
  | rapJitter
  | ppq5Jitter
  | ddpJitter
  | locShimmer
  | locDbShimmer
  | apq3Shimmer
  | apq5Shimmer
  | apq11Shimmer
  | ddaShimmer
  | meanAutoCorrHarmonicity
  | meanNoiseToHarmHarmonicity
  | meanHarmToNoiseHarmonicity
deriving DecidableEq, Repr

/-- `FEATURE_COLUMNS`: the fixed feature order every consumer agrees on. -/
def FEATURE_COLUMNS : List FeatureKey :=
  [.meanPeriodPulses, .stdDevPeriodPulses, .locPctJitter, .locAbsJitter,
   .rapJitter, .ppq5Jitter, .ddpJitter, .locShimmer, .locDbShimmer,
   .apq3Shimmer, .apq5Shimmer, .apq11Shimmer, .ddaShimmer,
   .meanAutoCorrHarmonicity, .meanNoiseToHarmHarmonicity,
   .meanHarmToNoiseHarmonicity]

/-- A `VoiceFeatureVector`: one real value per feature column. -/
structure VoiceFeatureVector where
  meanPeriodPulses : ℝ
  stdDevPeriodPulses : ℝ
  locPctJitter : ℝ
  locAbsJitter : ℝ
  rapJitter : ℝ
  ppq5Jitter : ℝ
  ddpJitter : ℝ
  locShimmer : ℝ
  locDbShimmer : ℝ
  apq3Shimmer : ℝ
  apq5Shimmer : ℝ
  apq11Shimmer : ℝ
  ddaShimmer : ℝ
  meanAutoCorrHarmonicity : ℝ
  meanNoiseToHarmHarmonicity : ℝ
  meanHarmToNoiseHarmonicity : ℝ

/-- Reading `features[key]` on the record. -/
def VoiceFeatureVector.get (v : VoiceFeatureVector) : FeatureKey → ℝ
  | .meanPeriodPulses => v.meanPeriodPulses
  | .stdDevPeriodPulses => v.stdDevPeriodPulses
  | .locPctJitter => v.locPctJitter
  | .locAbsJitter => v.locAbsJitter
  | .rapJitter => v.rapJitter
  | .ppq5Jitter => v.ppq5Jitter
  | .ddpJitter => v.ddpJitter
  | .locShimmer => v.locShimmer
  | .locDbShimmer => v.locDbShimmer
  | .apq3Shimmer => v.apq3Shimmer
  | .apq5Shimmer => v.apq5Shimmer
  | .apq11Shimmer => v.apq11Shimmer
  | .ddaShimmer => v.ddaShimmer
  | .meanAutoCorrHarmonicity => v.meanAutoCorrHarmonicity
  | .meanNoiseToHarmHarmonicity => v.meanNoiseToHarmHarmonicity
  | .meanHarmToNoiseHarmonicity => v.meanHarmToNoiseHarmonicity

/-- Building the record from a value per key (the source's `reduce` over
`FEATURE_COLUMNS`). -/
def buildFeatureVector (f : FeatureKey → ℝ) : VoiceFeatureVector where
  meanPeriodPulses := f .meanPeriodPulses
  stdDevPeriodPulses := f .stdDevPeriodPulses
  locPctJitter := f .locPctJitter
  locAbsJitter := f .locAbsJitter
  rapJitter := f .rapJitter
  ppq5Jitter := f .ppq5Jitter
  ddpJitter := f .ddpJitter
  locShimmer := f .locShimmer
  locDbShimmer := f .locDbShimmer
  apq3Shimmer := f .apq3Shimmer
  apq5Shimmer := f .apq5Shimmer
  apq11Shimmer := f .apq11Shimmer
  ddaShimmer := f .ddaShimmer
  meanAutoCorrHarmonicity := f .meanAutoCorrHarmonicity
  meanNoiseToHarmHarmonicity := f .meanNoiseToHarmHarmonicity
  meanHarmToNoiseHarmonicity := f .meanHarmToNoiseHarmonicity

/-! ## SignalConditioner (`mixDownToMono`, `trimSilence`, `limitDuration`)

These functions only add, divide, compare and take absolute values, so they
are embedded over `ℚ` and stay fully computable. -/

/-- A decoded `AudioBuffer`.  The Web Audio API guarantees every channel
holds exactly `length` frames; that invariant is carried in the structure. -/
structure AudioBuffer where
  sampleRate : ℚ
  length : ℕ
  channels : List (List ℚ)
  channels_length : ∀ c ∈ channels, c.length = length

/-- `mixDownToMono`: average all channels sample-wise; a single channel is
copied through unchanged. -/
def mixDownToMono (buffer : AudioBuffer) : List ℚ :=
  if buffer.channels.length = 1 then
    buffer.channels.headD []
  else
    (List.range buffer.length).map fun index =>
      (buffer.channels.map fun channelData => channelData.getD index 0).sum /
        (buffer.channels.length : ℚ)

/-- The forward scan of `trimSilence`: the index of the first sample whose
absolute amplitude reaches the threshold (`signal.length` if none does). -/
def scanStart (signal : List ℚ) (threshold : ℚ) : ℕ :=
  match signal with
  | [] => 0
  | x :: rest => if |x| < threshold then scanStart rest threshold + 1 else 0

/-- The backward scan of `trimSilence`: starting from index `e`, step down
while the index is above `start` and the sample there is below the
threshold. -/
def scanEnd (signal : List ℚ) (threshold : ℚ) (start : ℕ) : ℕ → ℕ
  | 0 => 0
  | e + 1 =>
    if start < e + 1 ∧ |signal.getD (e + 1) 0| < threshold then
      scanEnd signal threshold start e
    else e + 1

/-- `trimSilence`: drop leading/trailing samples below the threshold; if the
scans produce empty or inverted bounds (`end <= start`), return the original
signal unchanged.  The backward scan starts at `signal.length - 1`, which in
the source is the JavaScript number `-1` on an empty signal. -/
def trimSilence (signal : List ℚ) (threshold : ℚ := 1/100) : List ℚ :=
  let start := scanStart signal threshold
  let stop : ℤ :=
    if signal.length = 0 then (signal.length : ℤ) - 1
    else (scanEnd signal threshold start (signal.length - 1) : ℤ)
  if stop ≤ (start : ℤ) then signal
  else (signal.drop start).take (stop.toNat + 1 - start)

/-- `limitDuration`: truncate to at most `sampleRate * maxSeconds` samples
(floored); signals within the cap pass through unchanged. -/
def limitDuration (signal : List ℚ) (sampleRate : ℚ) (maxSeconds : ℚ := 15) :
    List ℚ :=
  let maxSamples : ℤ := min (signal.length : ℤ) ⌊sampleRate * maxSeconds⌋
  if (signal.length : ℤ) ≤ maxSamples then signal
  else signal.take maxSamples.toNat

/-! ## DatasetStore statistics and the KNNClassifier -/

/-- `mean`: arithmetic mean, `0` on an empty list. -/
noncomputable def mean (values : List ℝ) : ℝ :=
  if values.length = 0 then 0 else values.sum / (values.length : ℝ)

/-- `standardDeviation`: sample standard deviation (`n - 1` denominator),
`0` with fewer than two values. -/
noncomputable def standardDeviation (values : List ℝ) (valueMean : ℝ) : ℝ :=
  if values.length < 2 then 0
  else
    Real.sqrt (max ((values.map fun value =>
      (value - valueMean) * (value - valueMean)).sum / ((values.length : ℝ) - 1)) 0)

/-- Per-feature normalization statistics. -/
structure FeatureStat where
  mean : ℝ
  std : ℝ

/-- One labeled reference sample parsed from the dataset. -/
structure VoiceDatasetSample where
  features : VoiceFeatureVector
  label : VoiceClass

/-- A reference sample after z-scoring. -/
structure NormalisedSample where
  vector : List ℝ
  label : VoiceClass

/-- Model metadata (`k`, leave-one-out accuracy, corpus size, feature order). -/
structure VoiceModelMetadata where
  k : ℤ
  accuracy : Option ℝ
  sampleCount : ℕ
  features : List FeatureKey

/-- One neighbour entry of a prediction: its label and its distance. -/
structure NeighbourVote where
  label : VoiceClass
  distance : ℝ

/-- The prediction record returned to callers. -/
structure VoicePrediction where
  label : VoiceClass
  probabilityOfParkinsons : ℝ
  neighbourVotes : List NeighbourVote
  k : ℕ

/-- `computeFeatureStats`: corpus mean and sample standard deviation per
feature; a zero standard deviation is replaced by `1e-6` (`std || 1e-6`). -/
noncomputable def computeFeatureStats (samples : List VoiceDatasetSample) :
    FeatureKey → FeatureStat := fun key =>
  let values := samples.map fun sample => sample.features.get key
  let featureMean := mean values
  let std := standardDeviation values featureMean
  { mean := featureMean, std := if std = 0 then 1e-6 else std }

/-- `normalise`: z-score each feature in the fixed column order, guarding the
divisor once more (`std || 1e-6`). -/
noncomputable def normalise (features : VoiceFeatureVector)
    (stats : FeatureKey → FeatureStat) : List ℝ :=
  FEATURE_COLUMNS.map fun key =>
    (features.get key - (stats key).mean) /
      (if (stats key).std = 0 then 1e-6 else (stats key).std)

/-- `euclideanDistance`: the loop runs over `vectorA`'s indices. -/
noncomputable def euclideanDistance (vectorA vectorB : List ℝ) : ℝ :=
  Real.sqrt (((List.range vectorA.length).map fun index =>
    (vectorA.getD index 0 - vectorB.getD index 0) *
      (vectorA.getD index 0 - vectorB.getD index 0)).sum)

/-- Insert one entry into a distance-sorted list, keeping earlier entries
first among equal distances (the sort in the source is stable). -/
noncomputable def insertByDistance (entry : NeighbourVote) :
    List NeighbourVote → List NeighbourVote
  | [] => [entry]
  | head :: tail =>
    if entry.distance ≤ head.distance then entry :: head :: tail
    else head :: insertByDistance entry tail

/-- `.sort((a, b) => a.distance - b.distance)`: ascending stable sort by
distance. -/
noncomputable def sortByDistance (entries : List NeighbourVote) :
    List NeighbourVote :=
  entries.foldr insertByDistance []

/-- The effective `k`: `Math.min(Math.max(k, 1), samples.length)`. -/
def effectiveK (k : ℤ) (sampleCount : ℕ) : ℕ :=
  (min (max k 1) (sampleCount : ℤ)).toNat

/-- The `k'` nearest neighbours: distances to every sample, sorted ascending,
first `k'` kept. -/
noncomputable def knnNeighbours (vector : List ℝ)
    (samples : List NormalisedSample) (k : ℤ) : List NeighbourVote :=
  (sortByDistance (samples.map fun sample =>
    { label := sample.label,
      distance := euclideanDistance vector sample.vector })).take
    (effectiveK k samples.length)

/-- The mean distance across the selected neighbours. -/
noncomputable def meanNeighbourDistance (neighbours : List NeighbourVote) : ℝ :=
  (neighbours.map fun n => n.distance).sum / (neighbours.length : ℝ)

/-- Votes for the affected class among the neighbours. -/
def parkinsonsVotes (neighbours : List NeighbourVote) : ℕ :=
  neighbours.countP fun n => n.label = VoiceClass.Parkinsons

/-- Votes for the healthy class among the neighbours. -/
def healthyVotes (neighbours : List NeighbourVote) : ℕ :=
  neighbours.countP fun n => n.label = VoiceClass.Healthy

/-- `predictFromSamples`: `none` models the `throw` on an untrained (empty)
sample list; otherwise clamp `k`, select neighbours, vote, apply the
scale-mismatch damping (`* 0.3` whenever the mean neighbour distance exceeds
`10`) and threshold the probability at `0.5` with `>=`. -/
noncomputable def predictFromSamples (vector : List ℝ)
    (samples : List NormalisedSample) (k : ℤ) : Option VoicePrediction :=
  if samples.length = 0 then none
  else
    let neighbours := knnNeighbours vector samples k
    let avgDistance := meanNeighbourDistance neighbours
    let scaleMismatch := avgDistance > 10
    let rawProbability : ℝ :=
      if effectiveK k samples.length ≠ 0 then
        (parkinsonsVotes neighbours : ℝ) / (effectiveK k samples.length : ℝ)
      else 0
    let probability :=
      if scaleMismatch then rawProbability * 0.3 else rawProbability
    some
      { label := if probability ≥ 0.5 then .Parkinsons else .Healthy,
        probabilityOfParkinsons := probability,
        neighbourVotes := neighbours,
        k := effectiveK k samples.length }

/-- The loop body of `leaveOneOutAccuracy`: how many held-out samples are
predicted with their own label by `predictFromSamples` over the remaining
`n - 1` samples. -/
noncomputable def leaveOneOutCorrect (samples : List NormalisedSample)
    (k : ℤ) : ℕ :=
  (List.range samples.length).countP fun index =>
    match predictFromSamples (samples.getD index ⟨[], .Healthy⟩).vector
        (samples.eraseIdx index) k with
    | some prediction =>
      prediction.label = (samples.getD index ⟨[], .Healthy⟩).label
    | none => false

/-- `leaveOneOutAccuracy`: `null` below two samples; otherwise the fraction
of samples whose held-out prediction over the remaining `n - 1` samples
matches their label. -/
noncomputable def leaveOneOutAccuracy (samples : List NormalisedSample)
    (k : ℤ) : Option ℝ :=
  if samples.length < 2 then none
  else some ((leaveOneOutCorrect samples k : ℝ) / (samples.length : ℝ))

/-! ## ModelCache (the module-level mutable state) -/

/-- The four module-level mutable bindings of the source, as one state. -/
structure ModelState where
  datasetCache : Option (List VoiceDatasetSample)
  featureStats : Option (FeatureKey → FeatureStat)
  trainingSamples : Option (List NormalisedSample)
  trainedMetadata : Option VoiceModelMetadata

/-- `ensureModel`: reuse the populated cache, or parse/normalize/evaluate
once and populate it.  The fetched dataset is an explicit input (the
`fetch` is an external collaborator). -/
noncomputable def ensureModel (dataset : List VoiceDatasetSample) (k : ℤ)
    (state : ModelState) : ModelState × List NormalisedSample :=
  match state.trainingSamples, state.featureStats with
  | some ts, some _ => (state, ts)
  | _, _ =>
    let stats := computeFeatureStats dataset
    let ts := dataset.map fun sample =>
      { label := sample.label, vector := normalise sample.features stats }
    let accuracy := leaveOneOutAccuracy ts k
    ({ datasetCache := some (state.datasetCache.getD dataset),
       featureStats := some stats,
       trainingSamples := some ts,
       trainedMetadata := some
         { k := k, accuracy := accuracy, sampleCount := ts.length,
           features := FEATURE_COLUMNS } }, ts)

/-- `trainVoiceKnnModel`: ensure the model with `options.k ?? 5` and return
the metadata. -/
noncomputable def trainVoiceKnnModel (dataset : List VoiceDatasetSample)
    (kOption : Option ℤ) (state : ModelState) :
    ModelState × Option VoiceModelMetadata :=
  let k := kOption.getD 5
  let step := ensureModel dataset k state
  (step.1, step.1.trainedMetadata)

/-- `predictVoiceSample`: choose `k` as `options.k ?? trainedMetadata?.k ??
5`, ensure the model, normalize the query with the cached stats and predict
with the chosen `k`. -/
noncomputable def predictVoiceSample (dataset : List VoiceDatasetSample)
    (features : VoiceFeatureVector) (kOption : Option ℤ) (state : ModelState) :
    ModelState × Option VoicePrediction :=
  let k := kOption.getD ((state.trainedMetadata.map fun m => m.k).getD 5)
  let step := ensureModel dataset k state
  match step.1.featureStats with
  | none => (step.1, none)
  | some stats => (step.1, predictFromSamples (normalise features stats) step.2 k)

/-- `resetVoiceKnnModel`: clear every cached binding. -/
def resetVoiceKnnModel : ModelState :=
  { datasetCache := none, featureStats := none, trainingSamples := none,
    trainedMetadata := none }

/-- An all-zero feature vector, used as a concrete query. -/
def zeroFeatures : VoiceFeatureVector :=
  ⟨0, 0, 0, 0, 0, 0, 0, 0, 0, 0, 0, 0, 0, 0, 0, 0⟩

/-- Unit normalization statistics, used as a concrete cached state. -/
def unitStats : FeatureKey → FeatureStat := fun _ => { mean := 0, std := 1 }

/-- A concrete populated cache: one training sample, metadata trained at
`k = 5`. -/
noncomputable def demoState : ModelState :=
  { datasetCache := none,
    featureStats := some unitStats,
    trainingSamples := some [{ vector := [], label := .Healthy }],
    trainedMetadata := some
      { k := 5, accuracy := none, sampleCount := 1,
        features := FEATURE_COLUMNS } }

/-! ## PitchPeriodAnalyzer and AcousticFeatureComputer -/

/-- `averageAbsoluteDiff`: mean absolute successive difference, `0` below
two values. -/
noncomputable def averageAbsoluteDiff (values : List ℝ) : ℝ :=
  if values.length < 2 then 0
  else
    ((List.range (values.length - 1)).map fun index =>
      |values.getD index 0 - values.getD (index + 1) 0|).sum /
      ((values.length : ℝ) - 1)

/-- `computeRAP`: mean absolute deviation of each interior period from its
3-point neighbourhood mean, divided by the mean period. -/
noncomputable def computeRAP (periods : List ℝ) (meanPeriod : ℝ) : ℝ :=
  if periods.length < 3 ∨ meanPeriod = 0 then 0
  else
    let terms := (List.range (periods.length - 2)).map fun offset =>
      let localMean := (periods.getD offset 0 + periods.getD (offset + 1) 0 +
        periods.getD (offset + 2) 0) / 3
      |periods.getD (offset + 1) 0 - localMean|
    if terms.length = 0 then 0
    else terms.sum / (terms.length : ℝ) / meanPeriod

/-- `computePPQ`: the 5-point analogue of `computeRAP`. -/
noncomputable def computePPQ (periods : List ℝ) (meanPeriod : ℝ) : ℝ :=
  if periods.length < 5 ∨ meanPeriod = 0 then 0
  else
    let terms := (List.range (periods.length - 4)).map fun offset =>
      let localMean := (periods.getD offset 0 + periods.getD (offset + 1) 0 +
        periods.getD (offset + 2) 0 + periods.getD (offset + 3) 0 +
        periods.getD (offset + 4) 0) / 5
      |periods.getD (offset + 2) 0 - localMean|
    if terms.length = 0 then 0
    else terms.sum / (terms.length : ℝ) / meanPeriod

/-- `computeApq`: generalized amplitude perturbation quotient for a centered
window of `windowSize` samples. -/
noncomputable def computeApq (amplitudes : List ℝ) (meanAmplitude : ℝ)
    (windowSize : ℕ) : ℝ :=
  if amplitudes.length < windowSize ∨ meanAmplitude = 0 then 0
  else
    let half := windowSize / 2
    let terms := (List.range (amplitudes.length - 2 * half)).map fun offset =>
      let windowTotal := ((List.range (2 * half + 1)).map fun j =>
        amplitudes.getD (offset + j) 0).sum
      |amplitudes.getD (offset + half) 0 - windowTotal / (windowSize : ℝ)|
    if terms.length = 0 then 0
    else terms.sum / (terms.length : ℝ) / meanAmplitude

/-- `computeShimmerDb`: mean absolute `20·log10` of successive amplitude
ratios, with `ε = 1e-8` added to both terms. -/
noncomputable def computeShimmerDb (amplitudes : List ℝ) : ℝ :=
  if amplitudes.length < 2 then 0
  else
    ((List.range (amplitudes.length - 1)).map fun index =>
      |20 * Real.logb 10 ((amplitudes.getD (index + 1) 0 + 1e-8) /
        (amplitudes.getD index 0 + 1e-8))|).sum / ((amplitudes.length : ℝ) - 1)

/-- `hannWindow`: pointwise Hann weighting; lists of length at most one pass
through unchanged. -/
noncomputable def hannWindow (data : List ℝ) : List ℝ :=
  if data.length ≤ 1 then data
  else
    (List.range data.length).map fun index =>
      data.getD index 0 *
        (0.5 - 0.5 * Real.cos ((2 * Real.pi * (index : ℝ)) /
          ((data.length : ℝ) - 1)))

/-- The Hann-windowed, mean-removed frame of `analyseFrame`. -/
noncomputable def centredFrame (input : List ℝ) : List ℝ :=
  let windowed := hannWindow input
  let meanValue := mean windowed
  windowed.map fun x => x - meanValue

/-- The total energy of the centred frame. -/
noncomputable def frameEnergy (input : List ℝ) : ℝ :=
  ((centredFrame input).map fun x => x * x).sum

/-- Raw autocorrelation of the centred frame `w` at a lag. -/
noncomputable def autocorrAt (w : List ℝ) (lag : ℕ) : ℝ :=
  ((List.range (w.length - lag)).map fun index =>
    w.getD index 0 * w.getD (index + lag) 0).sum

/-- The lag search of `analyseFrame`: running `(bestCorrelation, bestLag)`
over `minLag..maxLag`, starting from `(0, 0)` and updating on strict
improvement of the energy-normalized correlation. -/
noncomputable def bestLagSearch (w : List ℝ) (energy : ℝ)
    (minLag maxLag : ℕ) : ℝ × ℕ :=
  (List.range' minLag (maxLag + 1 - minLag)).foldl
    (fun best lag =>
      let correlation := autocorrAt w lag / energy
      if correlation > best.1 then (correlation, lag) else best)
    (0, 0)

/-- The per-frame analysis result. -/
structure FrameAnalysis where
  frequency : Option ℝ
  correlation : ℝ
  rms : ℝ

/-- `analyseFrame`: window, remove DC, reject low-energy frames
(`energy <= 1e-9`), search the best lag, and accept only a best correlation
of at least `0.3` whose frequency lies in `[50, 500]` Hz. -/
noncomputable def analyseFrame (input : List ℝ) (sampleRate : ℝ)
    (minLag maxLag : ℕ) : FrameAnalysis :=
  if input.length = 0 then { frequency := none, correlation := 0, rms := 0 }
  else
    let w := centredFrame input
    let energy := frameEnergy input
    let rms := Real.sqrt (energy / (w.length : ℝ))
    if energy ≤ 1e-9 then { frequency := none, correlation := 0, rms := rms }
    else
      let best := bestLagSearch w energy minLag maxLag
      if best.2 = 0 ∨ best.1 < 0.3 then
        { frequency := none, correlation := best.1, rms := rms }
      else
        let frequency := sampleRate / (best.2 : ℝ)
        if frequency < 50 ∨ frequency > 500 then
          { frequency := none, correlation := best.1, rms := rms }
        else { frequency := some frequency, correlation := best.1, rms := rms }

/-- The frame start offsets: `0, 512, 1024, ...` while a full 2048-sample
frame still fits. -/
def frameStarts (sampleCount : ℕ) : List ℕ :=
  (List.range
    (if 2048 ≤ sampleCount then (sampleCount - 2048) / 512 + 1 else 0)).map
    fun index => index * 512

/-- One iteration of the frame loop: analyse the frame at `start` and keep
`(frequency, rms, correlation)` when the frequency is truthy and the
correlation is at least `0.3`. -/
noncomputable def frameResult (samples : List ℝ) (sampleRate : ℝ)
    (minLag maxLag : ℕ) (start : ℕ) : Option (ℝ × ℝ × ℝ) :=
  let analysis := analyseFrame ((samples.drop start).take 2048) sampleRate
    minLag maxLag
  match analysis.frequency with
  | some frequency =>
    if frequency ≠ 0 ∧ 0.3 ≤ analysis.correlation then
      some (frequency, analysis.rms, analysis.correlation)
    else none
  | none => none

/-- The accepted frames of a whole recording, in temporal order. -/
noncomputable def voicedFrames (samples : List ℝ) (sampleRate : ℝ)
    (minLag maxLag : ℕ) : List (ℝ × ℝ × ℝ) :=
  (frameStarts samples.length).filterMap
    (frameResult samples sampleRate minLag maxLag)

/-- The failure condition of feature extraction. -/
inductive VoiceFeatureError where
  | insufficientVoicedSignal
deriving DecidableEq, Repr

/-- `minLag = max(1, floor(sampleRate / 400))`. -/
noncomputable def minLagOf (sampleRate : ℝ) : ℕ := max 1 ⌊sampleRate / 400⌋.toNat

/-- `maxLag = max(minLag + 1, floor(sampleRate / 60))`. -/
noncomputable def maxLagOf (sampleRate : ℝ) : ℕ :=
  max (minLagOf sampleRate + 1) ⌊sampleRate / 60⌋.toNat

/-- `computeVoiceFeaturesFromSignal`: frame the signal, keep the voiced
frames, fail with `InsufficientVoicedSignal` below five of them, and
otherwise derive the 16 features from the period/amplitude/correlation
sequences. -/
noncomputable def computeVoiceFeaturesFromSignal (samples : List ℝ)
    (sampleRate : ℝ) : Except VoiceFeatureError VoiceFeatureVector :=
  let voiced := voicedFrames samples sampleRate (minLagOf sampleRate)
    (maxLagOf sampleRate)
  if voiced.length < 5 then .error .insufficientVoicedSignal
  else
    let periods := voiced.map fun entry => 1 / entry.1
    let amplitudes := voiced.map fun entry => entry.2.1
    let correlations := voiced.map fun entry => entry.2.2
    let meanPeriod := mean periods
    let periodStd := standardDeviation periods meanPeriod
    let meanAmplitude := mean amplitudes
    let meanCorrelation := mean correlations
    let jitterAbs := averageAbsoluteDiff periods
    let jitterPercent :=
      if meanPeriod ≠ 0 then jitterAbs / meanPeriod * 100 else 0
    let rap := computeRAP periods meanPeriod * 100
    let ppq := computePPQ periods meanPeriod * 100
    let ddp := rap * 3
    let shimmer :=
      if meanAmplitude ≠ 0 then
        averageAbsoluteDiff amplitudes / meanAmplitude * 100
      else 0
    let shimmerDb := computeShimmerDb amplitudes
    let apq3 := computeApq amplitudes meanAmplitude 3 * 100
    let apq5 := computeApq amplitudes meanAmplitude 5 * 100
    let apq11 := computeApq amplitudes meanAmplitude 11 * 100
    let shimmerDDA := apq3 * 3
    let harmonicEnergy := min (max meanCorrelation 1e-6) 1
    let noiseEnergy := max (1 - harmonicEnergy) 1e-6
    let nhr := noiseEnergy / harmonicEnergy
    .ok
      { meanPeriodPulses := meanPeriod,
        stdDevPeriodPulses := periodStd,
        locPctJitter := jitterPercent,
        locAbsJitter := jitterAbs,
        rapJitter := rap,
        ppq5Jitter := ppq,
        ddpJitter := ddp,
        locShimmer := shimmer,
        locDbShimmer := shimmerDb,
        apq3Shimmer := apq3,
        apq5Shimmer := apq5,
        apq11Shimmer := apq11,
        ddaShimmer := shimmerDDA,
        meanAutoCorrHarmonicity := meanCorrelation,
        meanNoiseToHarmHarmonicity := nhr,
        meanHarmToNoiseHarmonicity := 1 / max nhr 1e-6 }

/-! ## DatasetStore (`parseCsvDataset`) over `List Char` strings -/

/-- The named failure conditions of dataset parsing.  `malformedRow`
carries the reported row number, the field count found and the field count
expected (the data of the thrown message). -/
inductive CsvError where
  | emptyDataset
  | missingHeader
  | missingClassColumn
  | missingFeatureColumn (key : FeatureKey)
  | malformedRow (rowNumber got expected : ℕ)
  | noDataRows
deriving DecidableEq, Repr

/-- `String.prototype.trim`: strip whitespace from both ends. -/
def trimChars (text : List Char) : List Char :=
  ((text.dropWhile Char.isWhitespace).reverse.dropWhile Char.isWhitespace).reverse

/-- `split(/\r?\n/)`: split on newlines, also consuming a carriage return
directly before each newline. -/
def splitLines (text : List Char) : List (List Char) :=
  (text.splitOn '\n').map fun line =>
    if line.getLast? = some '\r' then line.dropLast else line

/-- The header column name of each feature, character for character. -/
def featureColumnName (key : FeatureKey) : List Char :=
  match key with
  | .meanPeriodPulses => "meanPeriodPulses".toList
  | .stdDevPeriodPulses => "stdDevPeriodPulses".toList
  | .locPctJitter => "locPctJitter".toList
  | .locAbsJitter => "locAbsJitter".toList
  | .rapJitter => "rapJitter".toList
  | .ppq5Jitter => "ppq5Jitter".toList
  | .ddpJitter => "ddpJitter".toList
  | .locShimmer => "locShimmer".toList
  | .locDbShimmer => "locDbShimmer".toList
  | .apq3Shimmer => "apq3Shimmer".toList
  | .apq5Shimmer => "apq5Shimmer".toList
  | .apq11Shimmer => "apq11Shimmer".toList
  | .ddaShimmer => "ddaShimmer".toList
  | .meanAutoCorrHarmonicity => "meanAutoCorrHarmonicity".toList
  | .meanNoiseToHarmHarmonicity => "meanNoiseToHarmHarmonicity".toList
  | .meanHarmToNoiseHarmonicity => "meanHarmToNoiseHarmonicity".toList

/-- The header-search loop: shift rows until one is non-empty, has a
non-blank cell and contains a cell that is exactly `class`; return it with
the rows left after it. -/
def findHeaderRow : List (List Char) → Option (List Char × List (List Char))
  | [] => none
  | candidate :: rest =>
    if candidate.isEmpty then findHeaderRow rest
    else
      let cells := candidate.splitOn ','
      if (cells.any fun cell => 0 < (trimChars cell).length) ∧
          "class".toList ∈ cells then
        some (candidate, rest)
      else findHeaderRow rest

/-- `Array.prototype.indexOf`: index of the first matching cell. -/
def firstIndexOf (cells : List (List Char)) (target : List Char) : Option ℕ :=
  match cells with
  | [] => none
  | cell :: rest =>
    if cell = target then some 0
    else (firstIndexOf rest target).map fun i => i + 1

/-- `Array.prototype.lastIndexOf`: index of the last matching cell. -/
def lastIndexOf (cells : List (List Char)) (target : List Char) : Option ℕ :=
  (firstIndexOf cells.reverse target).map fun i => cells.length - 1 - i

/-- Resolve the column index of every feature key, failing with
`MissingFeatureColumn` on the first absent one. -/
def featureIndicesOf (headers : List (List Char)) :
    Except CsvError (List ℕ) :=
  FEATURE_COLUMNS.mapM fun key =>
    match firstIndexOf headers (featureColumnName key) with
    | some index => Except.ok index
    | none => Except.error (.missingFeatureColumn key)

/-- The value of a digit run, most significant first. -/
def digitsToNat (digits : List Char) : ℕ :=
  digits.foldl (fun acc d => acc * 10 + (d.toNat - 48)) 0

/-- `Number.parseFloat` for the plain decimal numbers of the corpus:
optional sign, integer digits, optional fraction; `none` when no digit is
found (`NaN`).  Exponents are not modelled. -/
def parseFloatQ (text : List Char) : Option ℚ :=
  let s := text.dropWhile Char.isWhitespace
  let signed : ℚ × List Char :=
    match s with
    | '-' :: rest => (-1, rest)
    | '+' :: rest => (1, rest)
    | _ => (1, s)
  let intDigits := signed.2.takeWhile Char.isDigit
  let afterInt := signed.2.dropWhile Char.isDigit
  let fracDigits : List Char :=
    match afterInt with
    | '.' :: rest => rest.takeWhile Char.isDigit
    | _ => []
  if intDigits.isEmpty ∧ fracDigits.isEmpty then none
  else
    some (signed.1 * ((digitsToNat intDigits : ℚ) +
      (digitsToNat fracDigits : ℚ) / (10 : ℚ) ^ fracDigits.length))

/-- The label of a row: `parseFloat(cell) >= 0.5` picks the affected class;
`NaN` compares false and yields `Healthy`. -/
def rowLabel (cell : List Char) : VoiceClass :=
  match parseFloatQ cell with
  | some value => if (1 : ℚ)/2 ≤ value then .Parkinsons else .Healthy
  | none => .Healthy

/-- A feature cell: finite parsed values pass through, anything else
defaults to `0`. -/
def featureCellValue (cell : List Char) : ℚ :=
  match parseFloatQ cell with
  | some value => value
  | none => 0

/-- Build one sample from a well-formed row. -/
noncomputable def rowSample (columns : List (List Char)) (statusIndex : ℕ)
    (featureIndices : List ℕ) : VoiceDatasetSample :=
  { label := rowLabel (columns.getD statusIndex []),
    features := buildFeatureVector fun key =>
      ((featureCellValue (columns.getD
        (featureIndices.getD (FEATURE_COLUMNS.indexOf key) 0) [])) : ℝ) }

/-- Whether a data row triggers `MalformedRow` against a given header: it is
non-blank and its comma-separated field count differs from the header's. -/
def badRow (headers : List (List Char)) (row : List Char) : Prop :=
  ¬(trimChars row).isEmpty ∧ (row.splitOn ',').length ≠ headers.length

/-- The `rows.forEach` loop: skip blank rows, throw `MalformedRow` naming
`rowIndex + 2` on a field-count mismatch, and collect samples otherwise. -/
noncomputable def parseDataRows (headers : List (List Char)) (statusIndex : ℕ)
    (featureIndices : List ℕ) :
    ℕ → List (List Char) → List VoiceDatasetSample →
    Except CsvError (List VoiceDatasetSample)
  | _, [], acc => .ok acc.reverse
  | rowIndex, row :: rest, acc =>
    if (trimChars row).isEmpty then
      parseDataRows headers statusIndex featureIndices (rowIndex + 1) rest acc
    else
      let columns := row.splitOn ','
      if columns.length ≠ headers.length then
        .error (.malformedRow (rowIndex + 2) columns.length headers.length)
      else
        parseDataRows headers statusIndex featureIndices (rowIndex + 1) rest
          (rowSample columns statusIndex featureIndices :: acc)

/-- `parseCsvDataset`: trim, find the header, resolve the label and feature
columns, then parse every remaining row. -/
noncomputable def parseCsvDataset (csvText : List Char) :
    Except CsvError (List VoiceDatasetSample) :=
  let trimmed := trimChars csvText
  if trimmed.isEmpty then .error .emptyDataset
  else
    match findHeaderRow (splitLines trimmed) with
    | none => .error .missingHeader
    | some (header, rest) =>
      let headers := (header.splitOn ',').map trimChars
      match lastIndexOf headers "class".toList with
      | none => .error .missingClassColumn
      | some statusIndex =>
        match featureIndicesOf headers with
        | .error e => .error e
        | .ok featureIndices =>
          match parseDataRows headers statusIndex featureIndices 0 rest [] with
          | .error e => .error e
          | .ok samples =>
            if samples.isEmpty then .error .noDataRows else .ok samples

/-- A concrete corpus text: a header with all 16 feature columns plus
`class`, followed by one malformed (2-field) data row. -/
def demoCsv : List Char :=
  ("meanPeriodPulses,stdDevPeriodPulses,locPctJitter,locAbsJitter,rapJitter,ppq5Jitter,ddpJitter,locShimmer,locDbShimmer,apq3Shimmer,apq5Shimmer,apq11Shimmer,ddaShimmer,meanAutoCorrHarmonicity,meanNoiseToHarmHarmonicity,meanHarmToNoiseHarmonicity,class\n1,2").toList

/-- The header row of `demoCsv`. -/
def demoHeader : List Char :=
  ("meanPeriodPulses,stdDevPeriodPulses,locPctJitter,locAbsJitter,rapJitter,ppq5Jitter,ddpJitter,locShimmer,locDbShimmer,apq3Shimmer,apq5Shimmer,apq11Shimmer,ddaShimmer,meanAutoCorrHarmonicity,meanNoiseToHarmHarmonicity,meanHarmToNoiseHarmonicity,class").toList

/-! ## Helper lemmas about the k-NN classifier -/

theorem length_insertByDistance (entry : NeighbourVote)
    (entries : List NeighbourVote) :
    (insertByDistance entry entries).length = entries.length + 1 := by
  induction entries with
  | nil => rfl
  | cons head tail ih =>
    rw [insertByDistance]
    split
    · rfl
    · simp only [List.length_cons, ih]

theorem length_sortByDistance (entries : List NeighbourVote) :
    (sortByDistance entries).length = entries.length := by
  induction entries with
  | nil => rfl
  | cons head tail ih =>
    show (insertByDistance head (sortByDistance tail)).length = tail.length + 1
    rw [length_insertByDistance, ih]

theorem mem_insertByDistance {x entry : NeighbourVote}
    {entries : List NeighbourVote} :
    x ∈ insertByDistance entry entries ↔ x = entry ∨ x ∈ entries := by
  induction entries with
  | nil => simp [insertByDistance]
  | cons head tail ih =>
    rw [insertByDistance]
    split
    · simp
    · simp only [List.mem_cons, ih]
      tauto

theorem pairwise_insertByDistance {entry : NeighbourVote}
    {entries : List NeighbourVote}
    (h : entries.Pairwise fun a b => a.distance ≤ b.distance) :
    (insertByDistance entry entries).Pairwise
      fun a b => a.distance ≤ b.distance := by
  induction entries with
  | nil => simp [insertByDistance]
  | cons head tail ih =>
    rw [List.pairwise_cons] at h
    rw [insertByDistance]
    split
    · rename_i hle
      refine List.Pairwise.cons ?_ (List.Pairwise.cons h.1 h.2)
      intro b hb
      rcases List.mem_cons.mp hb with hb | hb
      · exact hb ▸ hle
      · exact le_trans hle (h.1 b hb)
    · rename_i hgt
      refine List.Pairwise.cons ?_ (ih h.2)
      intro b hb
      rcases mem_insertByDistance.mp hb with hb | hb
      · exact hb ▸ le_of_lt (lt_of_not_le hgt)
      · exact h.1 b hb

theorem pairwise_sortByDistance (entries : List NeighbourVote) :
    (sortByDistance entries).Pairwise fun a b => a.distance ≤ b.distance := by
  induction entries with
  | nil => exact List.Pairwise.nil
  | cons head tail ih => exact pairwise_insertByDistance ih

theorem effectiveK_le (k : ℤ) (sampleCount : ℕ) :
    effectiveK k sampleCount ≤ sampleCount := by
  unfold effectiveK
  omega

theorem effectiveK_pos (k : ℤ) {sampleCount : ℕ} (h : sampleCount ≠ 0) :
    1 ≤ effectiveK k sampleCount := by
  unfold effectiveK
  omega

theorem length_knnNeighbours (vector : List ℝ)
    (samples : List NormalisedSample) (k : ℤ) :
    (knnNeighbours vector samples k).length = effectiveK k samples.length := by
  unfold knnNeighbours
  rw [List.length_take, length_sortByDistance, List.length_map]
  exact min_eq_left (effectiveK_le k samples.length)

theorem pairwise_knnNeighbours (vector : List ℝ)
    (samples : List NormalisedSample) (k : ℤ) :
    (knnNeighbours vector samples k).Pairwise
      fun a b => a.distance ≤ b.distance :=
  List.Pairwise.sublist (List.take_sublist _ _) (pairwise_sortByDistance _)

theorem votes_total (neighbours : List NeighbourVote) :
    parkinsonsVotes neighbours + healthyVotes neighbours = neighbours.length := by
  induction neighbours with
  | nil => rfl
  | cons entry tail ih =>
    unfold parkinsonsVotes healthyVotes at ih ⊢
    rw [List.countP_cons, List.countP_cons]
    cases h : entry.label <;> simp [h] <;> omega

theorem predict_spec {vector : List ℝ} {samples : List NormalisedSample}
    {k : ℤ} {p : VoicePrediction}
    (h : predictFromSamples vector samples k = some p) :
    samples.length ≠ 0 ∧
    p.neighbourVotes = knnNeighbours vector samples k ∧
    p.k = effectiveK k samples.length ∧
    p.probabilityOfParkinsons =
      (if 10 < meanNeighbourDistance p.neighbourVotes then
        (parkinsonsVotes p.neighbourVotes : ℝ) / (p.k : ℝ) * 0.3
      else (parkinsonsVotes p.neighbourVotes : ℝ) / (p.k : ℝ)) ∧
    p.label =
      (if 0.5 ≤ p.probabilityOfParkinsons then VoiceClass.Parkinsons
       else VoiceClass.Healthy) := by
  unfold predictFromSamples at h
  by_cases hn : samples.length = 0
  · rw [if_pos hn] at h
    exact absurd h (by simp)
  · rw [if_neg hn] at h
    have hknz : effectiveK k samples.length ≠ 0 :=
      Nat.one_le_iff_ne_zero.mp (effectiveK_pos k hn)
    simp only [if_pos hknz, Option.some.injEq] at h
    subst h
    refine ⟨hn, rfl, rfl, ?_, rfl⟩
    simp only [gt_iff_lt, ge_iff_le]

/-- Claim C3: for every non-empty sample list and every requested integer
`k`, `predictFromSamples` succeeds, uses `k' = min(max(k, 1), n)`, returns
exactly `k'` neighbour entries sorted ascending by distance and reports `k'`
in the prediction's `k` field; in particular `k = 1000` against a 188-sample
corpus uses `k' = 188`. -/
theorem effective_k_clamping (vector : List ℝ)
    (samples : List NormalisedSample) (k : ℤ) (h : samples ≠ []) :
    ∃ p : VoicePrediction,
      predictFromSamples vector samples k = some p ∧
      p.k = (min (max k 1) (samples.length : ℤ)).toNat ∧
      1 ≤ p.k ∧ p.k ≤ samples.length ∧
      p.neighbourVotes.length = p.k ∧
      p.neighbourVotes.Pairwise (fun a b => a.distance ≤ b.distance) ∧
      (samples.length = 188 → k = 1000 → p.k = 188) := by
  have hn : samples.length ≠ 0 := fun hc => h (List.length_eq_zero.mp hc)
  have hsome : ∃ p, predictFromSamples vector samples k = some p := by
    unfold predictFromSamples
    rw [if_neg hn]
    exact ⟨_, rfl⟩
  obtain ⟨p, hp⟩ := hsome
  obtain ⟨-, hvotes, hk, -, -⟩ := predict_spec hp
  refine ⟨p, hp, hk, ?_, ?_, ?_, ?_, ?_⟩
  · rw [hk]; exact effectiveK_pos k hn
  · rw [hk]; exact effectiveK_le k samples.length
  · rw [hvotes, hk]; exact length_knnNeighbours vector samples k
  · rw [hvotes]; exact pairwise_knnNeighbours vector samples k
  · intro h188 h1000
    rw [hk, h188, h1000]
    rfl

/-- Witness for C3: a concrete two-sample corpus with `k = 1000`. -/
theorem effective_k_clamping_witness :
    ∃ p : VoicePrediction,
      predictFromSamples [0]
        [⟨[0], .Parkinsons⟩, ⟨[0], .Healthy⟩] 1000 = some p ∧
      p.k = (min (max 1000 1) ((2 : ℕ) : ℤ)).toNat ∧
      1 ≤ p.k ∧ p.k ≤ 2 ∧
      p.neighbourVotes.length = p.k ∧
      p.neighbourVotes.Pairwise (fun a b => a.distance ≤ b.distance) ∧
      ((2 : ℕ) = 188 → (1000 : ℤ) = 1000 → p.k = 188) :=
  effective_k_clamping [0] [⟨[0], .Parkinsons⟩, ⟨[0], .Healthy⟩] 1000
    (by simp)

/-- Claim C1 (as frozen) is refuted by this concrete run: the two selected
neighbours vote one `Parkinsons` against one `Healthy` — an exact tie — and
the scale-mismatch guard is active (mean neighbour distance `20 > 10`), yet
the returned label is `Healthy`, because the damped probability is
`0.5 * 0.3 = 0.15 < 0.5`. -/
theorem tie_break_guard_counterexample :
    predictFromSamples [0] [⟨[20], .Parkinsons⟩, ⟨[-20], .Healthy⟩] 2 =
      some { label := .Healthy, probabilityOfParkinsons := 3/20,
             neighbourVotes := [⟨.Parkinsons, 20⟩, ⟨.Healthy, 20⟩], k := 2 } := by
  have h20 : Real.sqrt 400 = 20 := by
    rw [show (400 : ℝ) = 20 * 20 by norm_num, Real.sqrt_mul_self (by norm_num)]
  have hd : (decide (VoiceClass.Healthy = VoiceClass.Parkinsons)) = false := rfl
  have ht : Int.toNat 2 = 2 := rfl
  unfold predictFromSamples knnNeighbours sortByDistance meanNeighbourDistance
  norm_num [insertByDistance, euclideanDistance, effectiveK, parkinsonsVotes,
    List.range_succ, List.countP, List.countP.go, h20, List.take, hd, ht]

/-- Claim C1, amended: whenever the `k'` selected neighbours contain exactly
equal numbers of affected and healthy votes AND the scale-mismatch guard is
inactive (mean neighbour distance at most `10`), the predicted label is the
affected class, because the final label is decided by `probability >= 0.5`.
(When the guard is active, a tie is damped to probability `0.15` and the
label is `Healthy` instead.) -/
theorem tie_break_policy (vector : List ℝ) (samples : List NormalisedSample)
    (k : ℤ) (p : VoicePrediction)
    (hp : predictFromSamples vector samples k = some p)
    (htie : parkinsonsVotes p.neighbourVotes = healthyVotes p.neighbourVotes)
    (hguard : meanNeighbourDistance p.neighbourVotes ≤ 10) :
    p.label = VoiceClass.Parkinsons := by
  obtain ⟨hn, hvotes, hk, hprob, hlabel⟩ := predict_spec hp
  have hlen : p.neighbourVotes.length = p.k := by
    rw [hvotes, hk]
    exact length_knnNeighbours vector samples k
  have hkpos : 1 ≤ p.k := hk ▸ effectiveK_pos k hn
  have htotal : parkinsonsVotes p.neighbourVotes +
      healthyVotes p.neighbourVotes = p.k := by
    rw [← hlen]
    exact votes_total p.neighbourVotes
  set pv := parkinsonsVotes p.neighbourVotes with hpv
  have hk2 : p.k = 2 * pv := by omega
  have hpvpos : 1 ≤ pv := by omega
  have hprob' : p.probabilityOfParkinsons = 1 / 2 := by
    rw [hprob, if_neg (not_lt.mpr hguard), hk2]
    push_cast
    rw [div_eq_iff (by positivity)]
    ring
  rw [hlabel, hprob']
  norm_num

/-- Witness for C1 (amended): a tied two-neighbour vote at distance `0`
returns the affected class. -/
theorem tie_break_policy_witness :
    ∃ p : VoicePrediction,
      predictFromSamples [0] [⟨[0], .Parkinsons⟩, ⟨[0], .Healthy⟩] 2 =
        some p ∧
      parkinsonsVotes p.neighbourVotes = healthyVotes p.neighbourVotes ∧
      meanNeighbourDistance p.neighbourVotes ≤ 10 ∧
      p.label = VoiceClass.Parkinsons := by
  have hd : (decide (VoiceClass.Healthy = VoiceClass.Parkinsons)) = false := rfl
  have ht : Int.toNat 2 = 2 := rfl
  have hp : predictFromSamples [0] [⟨[0], .Parkinsons⟩, ⟨[0], .Healthy⟩] 2 =
      some { label := .Parkinsons, probabilityOfParkinsons := 1/2,
             neighbourVotes := [⟨.Parkinsons, 0⟩, ⟨.Healthy, 0⟩], k := 2 } := by
    unfold predictFromSamples knnNeighbours sortByDistance meanNeighbourDistance
    norm_num [insertByDistance, euclideanDistance, effectiveK, parkinsonsVotes,
      List.range_succ, List.countP, List.countP.go, List.take, hd, ht]
  have htie : parkinsonsVotes
      [(⟨.Parkinsons, 0⟩ : NeighbourVote), ⟨.Healthy, 0⟩] = healthyVotes
      [(⟨.Parkinsons, 0⟩ : NeighbourVote), ⟨.Healthy, 0⟩] := by
    simp [parkinsonsVotes, healthyVotes, List.countP, List.countP.go]
  have hguard : meanNeighbourDistance
      [(⟨.Parkinsons, 0⟩ : NeighbourVote), ⟨.Healthy, 0⟩] ≤ 10 := by
    norm_num [meanNeighbourDistance]
  exact ⟨_, hp, htie, hguard,
    tie_break_policy [0] [⟨[0], .Parkinsons⟩, ⟨[0], .Healthy⟩] 2 _ hp htie hguard⟩

/-- Claim C2: the returned probability equals `0.3` times the raw vote
fraction exactly when the mean neighbour distance exceeds `10`, equals the
raw vote fraction otherwise, and never exceeds the raw vote fraction. -/
theorem scale_mismatch_guard (vector : List ℝ) (samples : List NormalisedSample)
    (k : ℤ) (p : VoicePrediction)
    (hp : predictFromSamples vector samples k = some p) :
    (10 < meanNeighbourDistance p.neighbourVotes →
      p.probabilityOfParkinsons =
        0.3 * ((parkinsonsVotes p.neighbourVotes : ℝ) / (p.k : ℝ))) ∧
    (meanNeighbourDistance p.neighbourVotes ≤ 10 →
      p.probabilityOfParkinsons =
        (parkinsonsVotes p.neighbourVotes : ℝ) / (p.k : ℝ)) ∧
    p.probabilityOfParkinsons ≤
      (parkinsonsVotes p.neighbourVotes : ℝ) / (p.k : ℝ) := by
  obtain ⟨hn, hvotes, hk, hprob, hlabel⟩ := predict_spec hp
  have hraw_nonneg : 0 ≤ (parkinsonsVotes p.neighbourVotes : ℝ) / (p.k : ℝ) := by
    positivity
  refine ⟨fun hmis => ?_, fun hok => ?_, ?_⟩
  · rw [hprob, if_pos hmis]
    ring
  · rw [hprob, if_neg (not_lt.mpr hok)]
  · rw [hprob]
    split
    · nlinarith
    · exact le_refl _

/-- Witness for C2: a single neighbour at distance `11` activates the guard
and the returned probability is `0.3` times the raw vote fraction. -/
theorem scale_mismatch_guard_witness :
    ∃ p : VoicePrediction,
      predictFromSamples [0] [⟨[11], .Parkinsons⟩] 5 = some p ∧
      10 < meanNeighbourDistance p.neighbourVotes ∧
      p.probabilityOfParkinsons =
        0.3 * ((parkinsonsVotes p.neighbourVotes : ℝ) / (p.k : ℝ)) := by
  have h11 : Real.sqrt 121 = 11 := by
    rw [show (121 : ℝ) = 11 * 11 by norm_num, Real.sqrt_mul_self (by norm_num)]
  have ht : Int.toNat 1 = 1 := rfl
  have hp : predictFromSamples [0] [⟨[11], .Parkinsons⟩] 5 =
      some { label := .Healthy, probabilityOfParkinsons := 3/10,
             neighbourVotes := [⟨.Parkinsons, 11⟩], k := 1 } := by
    unfold predictFromSamples knnNeighbours sortByDistance meanNeighbourDistance
    norm_num [insertByDistance, euclideanDistance, effectiveK, parkinsonsVotes,
      List.range_succ, List.countP, List.countP.go, List.take, h11, ht]
  have hmis : 10 < meanNeighbourDistance [(⟨.Parkinsons, 11⟩ : NeighbourVote)] := by
    norm_num [meanNeighbourDistance]
  exact ⟨_, hp, hmis,
    (scale_mismatch_guard [0] [⟨[11], .Parkinsons⟩] 5 _ hp).1 hmis⟩

/-- Claim C6: `leaveOneOutAccuracy` is `none` exactly below two samples;
with at least two it returns `correct / n`, where `correct` counts the
held-out samples whose label matches the prediction of `predictFromSamples`
over the remaining `n - 1` samples, and the value always lies in `[0, 1]`. -/
theorem leave_one_out_accuracy_spec (samples : List NormalisedSample) (k : ℤ) :
    (samples.length < 2 → leaveOneOutAccuracy samples k = none) ∧
    (2 ≤ samples.length →
      leaveOneOutAccuracy samples k =
        some ((leaveOneOutCorrect samples k : ℝ) / (samples.length : ℝ))) ∧
    (∀ q : ℝ, leaveOneOutAccuracy samples k = some q → 0 ≤ q ∧ q ≤ 1) := by
  refine ⟨fun hlt => ?_, fun hge => ?_, fun q hq => ?_⟩
  · rw [leaveOneOutAccuracy, if_pos hlt]
  · rw [leaveOneOutAccuracy, if_neg (not_lt.mpr hge)]
  · rw [leaveOneOutAccuracy] at hq
    by_cases hlt : samples.length < 2
    · rw [if_pos hlt] at hq
      exact absurd hq (by simp)
    · rw [if_neg hlt] at hq
      have hq' : q = (leaveOneOutCorrect samples k : ℝ) / (samples.length : ℝ) :=
        (Option.some.injEq _ _ ▸ hq).symm
      have hc : leaveOneOutCorrect samples k ≤ samples.length := by
        have := List.countP_le_length
          (fun index =>
            match predictFromSamples (samples.getD index ⟨[], .Healthy⟩).vector
                (samples.eraseIdx index) k with
            | some prediction =>
              prediction.label = (samples.getD index ⟨[], .Healthy⟩).label
            | none => false)
          (l := List.range samples.length)
        rwa [List.length_range] at this
      have hlen : 0 < (samples.length : ℝ) := by
        have : 0 < samples.length := by omega
        exact_mod_cast this
      constructor
      · rw [hq']
        positivity
      · rw [hq', div_le_one hlen]
        exact_mod_cast hc

/-! ## Helper lemmas about the SignalConditioner -/

theorem length_mixDownToMono (buffer : AudioBuffer) :
    (mixDownToMono buffer).length = buffer.length := by
  unfold mixDownToMono
  split
  · rename_i hone
    obtain ⟨c, hc⟩ := List.length_eq_one.mp hone
    rw [hc]
    exact buffer.channels_length c (hc ▸ List.mem_singleton_self c)
  · rw [List.length_map, List.length_range]

theorem length_trimSilence_le (signal : List ℚ) (threshold : ℚ) :
    (trimSilence signal threshold).length ≤ signal.length := by
  simp only [trimSilence]
  repeat' split
  all_goals
    first
      | exact le_refl _
      | exact le_trans (List.length_take _ _).le
          (le_trans (min_le_right _ _)
            (by rw [List.length_drop]; omega))

theorem length_limitDuration_le (signal : List ℚ) (sampleRate maxSeconds : ℚ) :
    (limitDuration signal sampleRate maxSeconds).length ≤ signal.length := by
  simp only [limitDuration]
  split
  · exact le_refl _
  · exact (List.length_take _ _).le.trans (min_le_right _ _)

theorem trimSilence_no_op (signal : List ℚ) (threshold : ℚ)
    (h : (if signal.length = 0 then (signal.length : ℤ) - 1
          else (scanEnd signal threshold (scanStart signal threshold)
            (signal.length - 1) : ℤ)) ≤ (scanStart signal threshold : ℤ)) :
    trimSilence signal threshold = signal := by
  simp only [trimSilence]
  exact if_pos h

theorem limitDuration_no_op (signal : List ℚ) (sampleRate : ℚ)
    (h : (signal.length : ℤ) ≤ ⌊sampleRate * 15⌋) :
    limitDuration signal sampleRate = signal := by
  simp only [limitDuration]
  exact if_pos (le_min (le_refl _) h)

/-- Claim C8: the mono/trim/cap pipeline never lengthens the signal (and a
length is never negative); `trimSilence` is the identity whenever its scans
produce empty or inverted bounds; `limitDuration` is the identity on signals
within the 15-second cap. -/
theorem signal_conditioner_spec :
    (∀ (buffer : AudioBuffer) (sampleRate : ℚ),
      (limitDuration (trimSilence (mixDownToMono buffer)) sampleRate).length ≤
        buffer.length ∧
      0 ≤ (limitDuration (trimSilence (mixDownToMono buffer)) sampleRate).length) ∧
    (∀ (signal : List ℚ) (threshold : ℚ),
      (if signal.length = 0 then (signal.length : ℤ) - 1
       else (scanEnd signal threshold (scanStart signal threshold)
         (signal.length - 1) : ℤ)) ≤ (scanStart signal threshold : ℤ) →
      trimSilence signal threshold = signal) ∧
    (∀ (signal : List ℚ) (sampleRate : ℚ),
      (signal.length : ℤ) ≤ ⌊sampleRate * 15⌋ →
      limitDuration signal sampleRate = signal) := by
  refine ⟨fun buffer sampleRate => ⟨?_, Nat.zero_le _⟩,
    trimSilence_no_op, limitDuration_no_op⟩
  calc (limitDuration (trimSilence (mixDownToMono buffer)) sampleRate).length
      ≤ (trimSilence (mixDownToMono buffer)).length :=
        length_limitDuration_le _ _ _
    _ ≤ (mixDownToMono buffer).length := length_trimSilence_le _ _
    _ = buffer.length := length_mixDownToMono buffer

/-! ## Helper lemmas about the trim scans -/

theorem scanStart_le_length (signal : List ℚ) (threshold : ℚ) :
    scanStart signal threshold ≤ signal.length := by
  induction signal with
  | nil => exact le_refl _
  | cons x rest ih =>
    rw [scanStart]
    split
    · simpa using ih
    · simp

theorem scanStart_loud {signal : List ℚ} {threshold : ℚ}
    (h : scanStart signal threshold < signal.length) :
    threshold ≤ |signal.getD (scanStart signal threshold) 0| := by
  induction signal with
  | nil => simp at h
  | cons x rest ih =>
    rw [scanStart] at h ⊢
    by_cases hx : |x| < threshold
    · rw [if_pos hx] at h ⊢
      simpa using ih (by simpa using h)
    · rw [if_neg hx] at h ⊢
      simpa using le_of_not_lt hx

theorem scanEnd_le_of_quiet {signal : List ℚ} {threshold : ℚ} {start : ℕ}
    (e : ℕ)
    (hq : ∀ j, start < j → j ≤ e → |signal.getD j 0| < threshold) :
    scanEnd signal threshold start e ≤ start := by
  induction e with
  | zero => exact Nat.zero_le start
  | succ e ih =>
    rw [scanEnd]
    split
    · exact ih fun j hj hje => hq j hj (le_trans hje (Nat.le_succ e))
    · rename_i hcond
      by_cases hs : start < e + 1
      · exact absurd ⟨hs, hq (e + 1) hs (le_refl _)⟩ hcond
      · omega

theorem countP_ge_two {p : ℚ → Bool} {signal : List ℚ} {i j : ℕ}
    (hij : i < j) (hj : j < signal.length)
    (hpi : p (signal.getD i 0) = true) (hpj : p (signal.getD j 0) = true) :
    2 ≤ signal.countP p := by
  induction signal generalizing i j with
  | nil => simp at hj
  | cons x rest ih =>
    rw [List.countP_cons]
    match i, j with
    | 0, j + 1 =>
      have hx : p x = true := hpi
      have hj' : j < rest.length := by simpa using hj
      have hmem : rest.getD j 0 ∈ rest := by
        rw [List.getD_eq_getElem rest 0 hj']
        exact List.getElem_mem hj'
      have hpos : 0 < rest.countP p :=
        List.countP_pos_iff.mpr ⟨rest.getD j 0, hmem, hpj⟩
      rw [if_pos hx]
      omega
    | i + 1, j + 1 =>
      have : 2 ≤ rest.countP p :=
        ih (by omega) (by simpa using hj) hpi hpj
      split <;> omega

/-- Claim C10: if at most one sample reaches the `0.01` threshold in
absolute value, `trimSilence` returns the whole signal unchanged — the
backward scan meets the forward scan and the defensive no-op branch fires. -/
theorem single_loud_sample_trim (signal : List ℚ)
    (h : (signal.countP fun x => decide ((1 : ℚ)/100 ≤ |x|)) ≤ 1) :
    trimSilence signal (1/100) = signal := by
  apply trimSilence_no_op
  by_cases hlen : signal.length = 0
  · rw [if_pos hlen]
    omega
  · rw [if_neg hlen]
    have hquiet : ∀ j, scanStart signal (1/100) < j → j ≤ signal.length - 1 →
        |signal.getD j 0| < 1/100 := by
      intro j hj hje
      by_contra hloud
      have hloud' : (1 : ℚ)/100 ≤ |signal.getD j 0| := le_of_not_lt hloud
      have hjlt : j < signal.length := by omega
      have hstart : scanStart signal (1/100) < signal.length := by omega
      have hstartloud : (1 : ℚ)/100 ≤
          |signal.getD (scanStart signal (1/100)) 0| := scanStart_loud hstart
      have : 2 ≤ signal.countP fun x => decide ((1 : ℚ)/100 ≤ |x|) :=
        countP_ge_two hj hjlt (by simpa using hstartloud) (by simpa using hloud')
      omega
    exact_mod_cast Int.ofNat_le.mpr (scanEnd_le_of_quiet _ hquiet)

/-- Witness for C10: a signal whose single sample is loud is left untouched. -/
theorem single_loud_sample_trim_witness :
    trimSilence [(1 : ℚ)/2] (1/100) = [(1 : ℚ)/2] := by
  apply single_loud_sample_trim
  simp [List.countP, List.countP.go, abs_of_nonneg]
  norm_num

/-! ## Helper lemmas about the ModelCache -/

theorem ensureModel_cached {state : ModelState} {ts : List NormalisedSample}
    {stats : FeatureKey → FeatureStat}
    (hts : state.trainingSamples = some ts)
    (hstats : state.featureStats = some stats)
    (dataset : List VoiceDatasetSample) (k : ℤ) :
    ensureModel dataset k state = (state, ts) := by
  unfold ensureModel
  rw [hts, hstats]

/-- Claim C9: once the cache is populated, `trainVoiceKnnModel` and
`predictVoiceSample` leave the cached state (samples, stats, metadata)
unchanged for any requested `k` until `resetVoiceKnnModel`; yet
`predictVoiceSample` hands the caller-supplied `k` to `predictFromSamples`,
so a prediction's effective `k` can differ from the metadata's `k` — as the
concrete populated state `demoState` (trained at `k = 5`, queried with
`k = 1`) exhibits. -/
theorem cached_model_ignores_later_k (state : ModelState)
    (ts : List NormalisedSample) (stats : FeatureKey → FeatureStat)
    (dataset : List VoiceDatasetSample) (features : VoiceFeatureVector)
    (kOption : Option ℤ)
    (hts : state.trainingSamples = some ts)
    (hstats : state.featureStats = some stats) :
    (trainVoiceKnnModel dataset kOption state).1 = state ∧
    (trainVoiceKnnModel dataset kOption state).2 = state.trainedMetadata ∧
    (predictVoiceSample dataset features kOption state).1 = state ∧
    (∀ kReq : ℤ, (predictVoiceSample dataset features (some kReq) state).2 =
      predictFromSamples (normalise features stats) ts kReq) ∧
    resetVoiceKnnModel.trainingSamples = none ∧
    resetVoiceKnnModel.featureStats = none ∧
    resetVoiceKnnModel.trainedMetadata = none ∧
    (∃ (p : VoicePrediction) (md : VoiceModelMetadata),
      demoState.trainedMetadata = some md ∧
      predictVoiceSample [] zeroFeatures (some 1) demoState =
        (demoState, some p) ∧
      (p.k : ℤ) ≠ md.k) := by
  have htrain : trainVoiceKnnModel dataset kOption state =
      (state, state.trainedMetadata) := by
    simp only [trainVoiceKnnModel, ensureModel_cached hts hstats]
  have hpredict : ∀ kOpt : Option ℤ,
      predictVoiceSample dataset features kOpt state =
        (state, predictFromSamples (normalise features stats) ts
          (kOpt.getD ((state.trainedMetadata.map fun m => m.k).getD 5))) := by
    intro kOpt
    simp only [predictVoiceSample, ensureModel_cached hts hstats, hstats]
  refine ⟨by rw [htrain], by rw [htrain], by rw [hpredict], fun kReq => ?_,
    rfl, rfl, rfl, ?_⟩
  · rw [hpredict (some kReq)]
    simp
  · have hdemo : predictVoiceSample [] zeroFeatures (some 1) demoState =
        (demoState, predictFromSamples (normalise zeroFeatures unitStats)
          [{ vector := [], label := .Healthy }] 1) := by
      simp only [predictVoiceSample,
        @ensureModel_cached demoState
          [{ vector := [], label := .Healthy }] unitStats rfl rfl]
      rfl
    have hnorm : normalise zeroFeatures unitStats =
        [0, 0, 0, 0, 0, 0, 0, 0, 0, 0, 0, 0, 0, 0, 0, 0] := by
      norm_num [normalise, FEATURE_COLUMNS, unitStats, zeroFeatures,
        VoiceFeatureVector.get]
    have hzero : ∀ i : ℕ,
        ([(0 : ℝ), 0, 0, 0, 0, 0, 0, 0, 0, 0, 0, 0, 0, 0, 0, 0]).getD i 0 = 0 := by
      intro i
      rcases lt_or_ge i 16 with hlt | hge
      · interval_cases i <;> rfl
      · exact List.getD_eq_default _ _ (by simpa using hge)
    have hsum : ((List.range
        ([(0 : ℝ), 0, 0, 0, 0, 0, 0, 0, 0, 0, 0, 0, 0, 0, 0, 0]).length).map
          fun index =>
        (([(0 : ℝ), 0, 0, 0, 0, 0, 0, 0, 0, 0, 0, 0, 0, 0, 0, 0]).getD index 0 -
          (([] : List ℝ)).getD index 0) *
        (([(0 : ℝ), 0, 0, 0, 0, 0, 0, 0, 0, 0, 0, 0, 0, 0, 0, 0]).getD index 0 -
          (([] : List ℝ)).getD index 0)).sum = 0 := by
      apply List.sum_eq_zero
      intro x hx
      obtain ⟨i, -, rfl⟩ := List.mem_map.mp hx
      rw [hzero i]
      norm_num
    have hdist : euclideanDistance
        [(0 : ℝ), 0, 0, 0, 0, 0, 0, 0, 0, 0, 0, 0, 0, 0, 0, 0] [] = 0 := by
      unfold euclideanDistance
      rw [hsum]
      exact Real.sqrt_zero
    have hp : predictFromSamples (normalise zeroFeatures unitStats)
        [{ vector := [], label := .Healthy }] 1 =
        some { label := .Healthy, probabilityOfParkinsons := 0,
               neighbourVotes := [⟨.Healthy, 0⟩], k := 1 } := by
      have hd : (decide (VoiceClass.Healthy = VoiceClass.Parkinsons)) = false := rfl
      rw [hnorm]
      unfold predictFromSamples knnNeighbours sortByDistance
        meanNeighbourDistance
      norm_num [insertByDistance, effectiveK, parkinsonsVotes, hdist,
        List.countP, List.countP.go, List.take, hd]
    exact ⟨_, _, rfl, by rw [hdemo, hp], by norm_num [demoState]⟩

/-- Witness for C9: the populated `demoState` is left unchanged by a
training call and a prediction call at `k = 1`. -/
theorem cached_model_ignores_later_k_witness :
    (trainVoiceKnnModel [] (some 1) demoState).1 = demoState ∧
    (trainVoiceKnnModel [] (some 1) demoState).2 = demoState.trainedMetadata ∧
    (predictVoiceSample [] zeroFeatures (some 1) demoState).1 = demoState ∧
    (∀ kReq : ℤ,
      (predictVoiceSample [] zeroFeatures (some kReq) demoState).2 =
        predictFromSamples (normalise zeroFeatures unitStats)
          [{ vector := [], label := .Healthy }] kReq) ∧
    resetVoiceKnnModel.trainingSamples = none ∧
    resetVoiceKnnModel.featureStats = none ∧
    resetVoiceKnnModel.trainedMetadata = none ∧
    (∃ (p : VoicePrediction) (md : VoiceModelMetadata),
      demoState.trainedMetadata = some md ∧
      predictVoiceSample [] zeroFeatures (some 1) demoState =
        (demoState, some p) ∧
      (p.k : ℤ) ≠ md.k) :=
  cached_model_ignores_later_k demoState [{ vector := [], label := .Healthy }]
    unitStats [] zeroFeatures (some 1) rfl rfl

/-- Claim C7: in every 16-feature vector produced by
`computeVoiceFeaturesFromSignal`, `ddpJitter` equals exactly `3` times
`rapJitter`, and `ddaShimmer` equals exactly `3` times `apq3Shimmer`. -/
theorem analytic_feature_relationships (samples : List ℝ) (sampleRate : ℝ) :
    (computeVoiceFeaturesFromSignal samples sampleRate).toOption.elim True
      fun v =>
        v.ddpJitter = 3 * v.rapJitter ∧ v.ddaShimmer = 3 * v.apq3Shimmer := by
  simp only [computeVoiceFeaturesFromSignal]
  split
  · simp [Except.toOption]
  · simp only [Except.toOption, Option.elim]
    exact ⟨by ring, by ring⟩

/-! ## Helper lemmas about frame analysis -/

theorem length_filterMap_eq_countP {α β : Type} (f : α → Option β)
    (l : List α) :
    (l.filterMap f).length = l.countP fun a => (f a).isSome := by
  induction l with
  | nil => rfl
  | cons x rest ih =>
    cases h : f x <;>
      simp [List.filterMap_cons, h, List.countP_cons, ih]

theorem analyseFrame_eq (input : List ℝ) (sampleRate : ℝ)
    (minLag maxLag : ℕ) :
    analyseFrame input sampleRate minLag maxLag =
      (if input.length = 0 then { frequency := none, correlation := 0, rms := 0 }
       else if frameEnergy input ≤ 1e-9 then
        { frequency := none, correlation := 0,
          rms := Real.sqrt (frameEnergy input / ((centredFrame input).length : ℝ)) }
       else if (bestLagSearch (centredFrame input) (frameEnergy input) minLag
            maxLag).2 = 0 ∨
          (bestLagSearch (centredFrame input) (frameEnergy input) minLag
            maxLag).1 < 0.3 then
        { frequency := none,
          correlation := (bestLagSearch (centredFrame input) (frameEnergy input)
            minLag maxLag).1,
          rms := Real.sqrt (frameEnergy input / ((centredFrame input).length : ℝ)) }
       else if sampleRate / ((bestLagSearch (centredFrame input)
            (frameEnergy input) minLag maxLag).2 : ℝ) < 50 ∨
          sampleRate / ((bestLagSearch (centredFrame input) (frameEnergy input)
            minLag maxLag).2 : ℝ) > 500 then
        { frequency := none,
          correlation := (bestLagSearch (centredFrame input) (frameEnergy input)
            minLag maxLag).1,
          rms := Real.sqrt (frameEnergy input / ((centredFrame input).length : ℝ)) }
       else
        { frequency := some (sampleRate / ((bestLagSearch (centredFrame input)
            (frameEnergy input) minLag maxLag).2 : ℝ)),
          correlation := (bestLagSearch (centredFrame input) (frameEnergy input)
            minLag maxLag).1,
          rms := Real.sqrt (frameEnergy input /
            ((centredFrame input).length : ℝ)) }) := rfl

theorem frameEnergy_nil : frameEnergy [] = 0 := by
  simp [frameEnergy, centredFrame, hannWindow, mean]

theorem frameResult_isSome_iff (samples : List ℝ) (sampleRate : ℝ)
    (minLag maxLag start : ℕ) :
    (frameResult samples sampleRate minLag maxLag start).isSome = true ↔
      (1e-9 < frameEnergy ((samples.drop start).take 2048) ∧
       0.3 ≤ (bestLagSearch (centredFrame ((samples.drop start).take 2048))
         (frameEnergy ((samples.drop start).take 2048)) minLag maxLag).1 ∧
       50 ≤ sampleRate / ((bestLagSearch
         (centredFrame ((samples.drop start).take 2048))
         (frameEnergy ((samples.drop start).take 2048)) minLag maxLag).2 : ℝ) ∧
       sampleRate / ((bestLagSearch
         (centredFrame ((samples.drop start).take 2048))
         (frameEnergy ((samples.drop start).take 2048)) minLag maxLag).2 : ℝ) ≤
         500) := by
  simp only [frameResult]
  rw [analyseFrame_eq]
  split_ifs with h0 hE hBest hFreq
  · rw [List.length_eq_zero] at h0
    rw [h0]
    simp only [Option.isSome_none, frameEnergy_nil]
    constructor
    · intro h
      exact absurd h (by norm_num)
    · intro h
      exact absurd h.1 (by norm_num)
  · simp only [Option.isSome_none]
    constructor
    · intro h
      exact absurd h (by norm_num)
    · intro h
      exact absurd h.1 (not_lt.mpr hE)
  · simp only [Option.isSome_none]
    constructor
    · intro h
      exact absurd h (by norm_num)
    · rcases hBest with hz | hc
      · intro h
        rw [hz] at h
        norm_num at h
      · intro h
        linarith [h.2.1]
  · simp only [Option.isSome_none]
    constructor
    · intro h
      exact absurd h (by norm_num)
    · rcases hFreq with hlo | hhi
      · intro h
        linarith [h.2.2.1]
      · intro h
        linarith [h.2.2.2]
  · push_neg at hBest hFreq
    have h50 : (50 : ℝ) ≤ sampleRate / ((bestLagSearch
        (centredFrame ((samples.drop start).take 2048))
        (frameEnergy ((samples.drop start).take 2048)) minLag maxLag).2 : ℝ) :=
      le_of_not_lt (fun hc => absurd hc (not_lt.mpr (le_of_lt (by linarith [hFreq.1]))))
    have hne : sampleRate / ((bestLagSearch
        (centredFrame ((samples.drop start).take 2048))
        (frameEnergy ((samples.drop start).take 2048)) minLag maxLag).2 : ℝ) ≠ 0 :=
      ne_of_gt (lt_of_lt_of_le (by norm_num) hFreq.1)
    dsimp only
    rw [if_pos ⟨hne, hBest.2⟩]
    simp only [Option.isSome_some, true_iff]
    push_neg at hE
    exact ⟨hE, hBest.2, hFreq.1, hFreq.2⟩

theorem computeVoiceFeatures_error_iff (samples : List ℝ) (sampleRate : ℝ) :
    computeVoiceFeaturesFromSignal samples sampleRate =
      .error .insufficientVoicedSignal ↔
      ((frameStarts samples.length).countP fun start =>
        (frameResult samples sampleRate (minLagOf sampleRate)
          (maxLagOf sampleRate) start).isSome) < 5 := by
  have hlen : (voicedFrames samples sampleRate (minLagOf sampleRate)
      (maxLagOf sampleRate)).length =
      (frameStarts samples.length).countP fun start =>
        (frameResult samples sampleRate (minLagOf sampleRate)
          (maxLagOf sampleRate) start).isSome :=
    length_filterMap_eq_countP _ _
  simp only [computeVoiceFeaturesFromSignal]
  split
  · rename_i h
    exact iff_of_true rfl (hlen ▸ h)
  · rename_i h
    exact iff_of_false (by simp) (hlen ▸ h)

/-! ## Helper lemmas about silent signals -/

theorem hannWindow_replicate_zero (m : ℕ) :
    hannWindow (List.replicate m 0) = List.replicate m 0 := by
  rw [hannWindow]
  split
  · rfl
  · rw [List.length_replicate, List.eq_replicate_iff]
    refine ⟨by rw [List.length_map, List.length_range], ?_⟩
    intro x hx
    obtain ⟨i, hi, rfl⟩ := List.mem_map.mp hx
    rcases lt_or_ge i m with hlt | hge
    · rw [List.getD_eq_getElem _ _ (by simpa using hlt), List.getElem_replicate]
      ring
    · rw [List.getD_eq_default _ _ (by simpa using hge)]
      ring

theorem mean_replicate_zero (m : ℕ) : mean (List.replicate m (0 : ℝ)) = 0 := by
  rw [mean]
  split
  · rfl
  · rw [List.sum_replicate]
    simp

theorem centredFrame_replicate_zero (m : ℕ) :
    centredFrame (List.replicate m 0) = List.replicate m 0 := by
  simp only [centredFrame, hannWindow_replicate_zero, mean_replicate_zero,
    List.map_replicate]
  norm_num

theorem frameEnergy_replicate_zero (m : ℕ) :
    frameEnergy (List.replicate m 0) = 0 := by
  simp only [frameEnergy, centredFrame_replicate_zero, List.map_replicate]
  rw [List.sum_replicate]
  norm_num

theorem frameResult_replicate_zero (n : ℕ) (sampleRate : ℝ)
    (minLag maxLag start : ℕ) :
    frameResult (List.replicate n 0) sampleRate minLag maxLag start = none := by
  simp only [frameResult]
  rw [List.drop_replicate, List.take_replicate, analyseFrame_eq]
  split_ifs with h0 hE hB hF
  · rfl
  · rfl
  all_goals exact absurd (by rw [frameEnergy_replicate_zero]; norm_num) hE

theorem computeVoiceFeatures_silent (n : ℕ) (sampleRate : ℝ) :
    computeVoiceFeaturesFromSignal (List.replicate n 0) sampleRate =
      .error .insufficientVoicedSignal := by
  rw [computeVoiceFeatures_error_iff]
  have hzero : ((frameStarts (List.replicate n (0 : ℝ)).length).countP
      fun start =>
        (frameResult (List.replicate n (0 : ℝ)) sampleRate (minLagOf sampleRate)
          (maxLagOf sampleRate) start).isSome) = 0 := by
    apply List.countP_eq_zero.mpr
    intro start hstart
    rw [frameResult_replicate_zero]
    simp
  rw [hzero]
  norm_num

/-- Claim C4: feature extraction fails with `InsufficientVoicedSignal`
exactly when fewer than five frames are accepted, where a frame is accepted
precisely when its centred energy exceeds `1e-9`, its best normalized
autocorrelation is at least `0.3` and the corresponding frequency lies in
`[50, 500]` Hz; in particular every all-zero waveform fails this way. -/
theorem insufficient_voiced_signal_spec :
    (∀ (samples : List ℝ) (sampleRate : ℝ),
      computeVoiceFeaturesFromSignal samples sampleRate =
        .error .insufficientVoicedSignal ↔
        ((frameStarts samples.length).countP fun start =>
          (frameResult samples sampleRate (minLagOf sampleRate)
            (maxLagOf sampleRate) start).isSome) < 5) ∧
    (∀ (samples : List ℝ) (sampleRate : ℝ) (minLag maxLag start : ℕ),
      (frameResult samples sampleRate minLag maxLag start).isSome = true ↔
        (1e-9 < frameEnergy ((samples.drop start).take 2048) ∧
         0.3 ≤ (bestLagSearch (centredFrame ((samples.drop start).take 2048))
           (frameEnergy ((samples.drop start).take 2048)) minLag maxLag).1 ∧
         50 ≤ sampleRate / ((bestLagSearch
           (centredFrame ((samples.drop start).take 2048))
           (frameEnergy ((samples.drop start).take 2048)) minLag
             maxLag).2 : ℝ) ∧
         sampleRate / ((bestLagSearch
           (centredFrame ((samples.drop start).take 2048))
           (frameEnergy ((samples.drop start).take 2048)) minLag
             maxLag).2 : ℝ) ≤ 500)) ∧
    (∀ (n : ℕ) (sampleRate : ℝ),
      computeVoiceFeaturesFromSignal (List.replicate n 0) sampleRate =
        .error .insufficientVoicedSignal) :=
  ⟨computeVoiceFeatures_error_iff, frameResult_isSome_iff,
    computeVoiceFeatures_silent⟩

/-! ## Helper lemmas about CSV parsing -/

theorem parseDataRows_malformed_iff (headers : List (List Char))
    (statusIndex : ℕ) (featureIndices : List ℕ) (rows : List (List Char))
    (rowIndex : ℕ) (acc : List VoiceDatasetSample) :
    (∃ rowNumber got expected,
      parseDataRows headers statusIndex featureIndices rowIndex rows acc =
        .error (.malformedRow rowNumber got expected)) ↔
      ∃ row ∈ rows, badRow headers row := by
  induction rows generalizing rowIndex acc with
  | nil => simp [parseDataRows]
  | cons row rest ih =>
    simp only [parseDataRows]
    by_cases hblank : (trimChars row).isEmpty
    · rw [if_pos hblank, ih]
      constructor
      · rintro ⟨r, hr, hbad⟩
        exact ⟨r, List.mem_cons_of_mem _ hr, hbad⟩
      · rintro ⟨r, hr, hbad⟩
        rcases List.mem_cons.mp hr with rfl | hr
        · exact absurd hblank hbad.1
        · exact ⟨r, hr, hbad⟩
    · rw [if_neg hblank]
      by_cases hcount : (row.splitOn ',').length ≠ headers.length
      · rw [if_pos hcount]
        constructor
        · intro _
          exact ⟨row, List.mem_cons_self row rest, hblank, hcount⟩
        · intro _
          exact ⟨_, _, _, rfl⟩
      · rw [if_neg hcount, ih]
        constructor
        · rintro ⟨r, hr, hbad⟩
          exact ⟨r, List.mem_cons_of_mem _ hr, hbad⟩
        · rintro ⟨r, hr, hbad⟩
          rcases List.mem_cons.mp hr with rfl | hr
          · exact absurd hbad.2 hcount
          · exact ⟨r, hr, hbad⟩

theorem parseDataRows_first_bad (headers : List (List Char))
    (statusIndex : ℕ) (featureIndices : List ℕ) (rows : List (List Char))
    (rowIndex : ℕ) (acc : List VoiceDatasetSample) (i : ℕ)
    (hi : i < rows.length) (hbad : badRow headers (rows.getD i []))
    (hmin : ∀ j, j < i → ¬ badRow headers (rows.getD j [])) :
    parseDataRows headers statusIndex featureIndices rowIndex rows acc =
      .error (.malformedRow (rowIndex + i + 2)
        ((rows.getD i []).splitOn ',').length headers.length) := by
  induction rows generalizing rowIndex acc i with
  | nil => simp at hi
  | cons row rest ih =>
    match i with
    | 0 =>
      have hb : badRow headers row := by simpa using hbad
      simp only [parseDataRows, List.getD_cons_zero]
      rw [if_neg hb.1, if_pos hb.2]
    | i + 1 =>
      have hnotbad : ¬ badRow headers row := by
        simpa using hmin 0 (Nat.succ_pos i)
      have hi' : i < rest.length := by simpa using hi
      have hbad' : badRow headers (rest.getD i []) := by simpa using hbad
      have hmin' : ∀ j, j < i → ¬ badRow headers (rest.getD j []) := by
        intro j hj
        simpa using hmin (j + 1) (by omega)
      simp only [parseDataRows, List.getD_cons_succ]
      by_cases hblank : (trimChars row).isEmpty
      · rw [if_pos hblank, ih (rowIndex + 1) acc i hi' hbad' hmin',
          show rowIndex + 1 + i + 2 = rowIndex + (i + 1) + 2 by omega]
      · have hcount : ¬((row.splitOn ',').length ≠ headers.length) :=
          fun hc => hnotbad ⟨hblank, hc⟩
        rw [if_neg hblank, if_neg hcount,
          ih (rowIndex + 1) _ i hi' hbad' hmin',
          show rowIndex + 1 + i + 2 = rowIndex + (i + 1) + 2 by omega]

theorem parseCsvDataset_after_header (csvText header : List Char)
    (rest : List (List Char)) (statusIndex : ℕ) (featureIndices : List ℕ)
    (hheader : findHeaderRow (splitLines (trimChars csvText)) =
      some (header, rest))
    (hclass : lastIndexOf ((header.splitOn ',').map trimChars)
      "class".toList = some statusIndex)
    (hfeat : featureIndicesOf ((header.splitOn ',').map trimChars) =
      .ok featureIndices) :
    parseCsvDataset csvText =
      (match parseDataRows ((header.splitOn ',').map trimChars) statusIndex
          featureIndices 0 rest [] with
       | .error e => .error e
       | .ok samples =>
         if samples.isEmpty then .error .noDataRows else .ok samples) := by
  have hne : ¬(trimChars csvText).isEmpty := by
    intro h
    rw [List.isEmpty_iff] at h
    rw [h] at hheader
    exact absurd hheader (by simp [splitLines, findHeaderRow])
  simp only [parseCsvDataset]
  rw [if_neg hne, hheader]
  simp only []
  rw [hclass, hfeat]

/-- Claim C5: with a located header and resolved feature columns, parsing
fails with `MalformedRow` exactly when some non-blank remaining row has a
comma-separated field count different from the header's (blank rows are
skipped without error), and the failure names row `i + 2` where `i` is the
offending row's index among the rows remaining after the header search. -/
theorem malformed_row_spec (csvText header : List Char)
    (rest : List (List Char)) (headers : List (List Char))
    (statusIndex : ℕ) (featureIndices : List ℕ)
    (hheader : findHeaderRow (splitLines (trimChars csvText)) =
      some (header, rest))
    (hheaders : headers = (header.splitOn ',').map trimChars)
    (hclass : lastIndexOf headers "class".toList = some statusIndex)
    (hfeat : featureIndicesOf headers = .ok featureIndices) :
    ((∃ rowNumber got expected, parseCsvDataset csvText =
        .error (.malformedRow rowNumber got expected)) ↔
      ∃ row ∈ rest, badRow headers row) ∧
    (∀ i, i < rest.length → badRow headers (rest.getD i []) →
      (∀ j, j < i → ¬ badRow headers (rest.getD j [])) →
      parseCsvDataset csvText = .error (.malformedRow (i + 2)
        ((rest.getD i []).splitOn ',').length headers.length)) := by
  subst hheaders
  have hparse := parseCsvDataset_after_header csvText header rest statusIndex
    featureIndices hheader hclass hfeat
  constructor
  · rw [hparse]
    cases hpd : parseDataRows ((header.splitOn ',').map trimChars) statusIndex
        featureIndices 0 rest [] with
    | error e =>
      simp only []
      constructor
      · rintro ⟨rowNumber, got, expected, hp⟩
        have he : e = .malformedRow rowNumber got expected := by
          simpa using hp
        exact (parseDataRows_malformed_iff _ _ _ _ _ _).mp
          ⟨rowNumber, got, expected, he ▸ hpd⟩
      · intro hbad
        obtain ⟨rowNumber, got, expected, hp⟩ :=
          (parseDataRows_malformed_iff ((header.splitOn ',').map trimChars)
            statusIndex featureIndices rest 0 []).mpr hbad
        rw [hpd] at hp
        have he : e = .malformedRow rowNumber got expected := by simpa using hp
        exact ⟨rowNumber, got, expected, by rw [he]⟩
    | ok samples =>
      simp only []
      constructor
      · rintro ⟨rowNumber, got, expected, hp⟩
        split at hp <;> simp at hp
      · intro hbad
        obtain ⟨rowNumber, got, expected, hp⟩ :=
          (parseDataRows_malformed_iff ((header.splitOn ',').map trimChars)
            statusIndex featureIndices rest 0 []).mpr hbad
        rw [hpd] at hp
        exact absurd hp (by simp)
  · intro i hi hbad hmin
    rw [hparse, parseDataRows_first_bad _ _ _ _ 0 _ i hi hbad hmin,
      show 0 + i + 2 = i + 2 by omega]

set_option maxRecDepth 100000 in
/-- Witness for C5: `demoCsv`'s single data row has 2 fields against a
17-field header, and parsing reports `MalformedRow` at row number 2. -/
theorem malformed_row_spec_witness :
    parseCsvDataset demoCsv = .error (.malformedRow 2 2 17) := by
  have h := (malformed_row_spec demoCsv demoHeader ["1,2".toList]
      ((demoHeader.splitOn ',').map trimChars) 16
      [0, 1, 2, 3, 4, 5, 6, 7, 8, 9, 10, 11, 12, 13, 14, 15]
      (by decide) rfl (by decide) rfl).2 0 (by decide)
      ⟨by decide, by decide⟩
      (fun j hj => absurd hj (Nat.not_lt_zero j))
  rw [show ((([("1,2".toList)]).getD 0 []).splitOn ',').length = 2 by decide,
    show (((demoHeader.splitOn ',').map trimChars)).length = 17 by decide] at h
  exact h

end VoiceKnn
